import Mathlib

/-!
Shallow embedding of the image transformation invocations of
`invokeai/app/invocations/image.py`.

Each invocation class becomes a structure whose fields mirror the pydantic
inputs, with an `invoke` function threading an explicit image store (the
`context.services.images` gateway).  PIL and numpy primitives used by the
source are modelled from their documented behaviour; `float32`/`float64`
arithmetic is modelled as exact rational arithmetic, and every concrete
counterexample below is chosen at inputs where the float computation is
exact.
-/

namespace InvokeImage

/-- Truncation toward zero, as the C float-to-integer cast behaves
(the numpy `uint8` cast and the Python `int()` both truncate toward zero). -/
def qtrunc (x : ℚ) : ℤ := if 0 ≤ x then ⌊x⌋ else ⌈x⌉

/-- `numpy.uint8` applied to a finite float value: a C cast, i.e. truncation
toward zero followed by wrapping modulo 256.  There is no saturation. -/
def numpyUint8 (x : ℚ) : ℕ := ((qtrunc x) % 256).toNat

/-- Modelled from the spec: a conversion that "saturates to 8-bit range",
i.e. the truncated value clamped into [0, 255].  Used only to contrast the
wording of the spec with the wrapping conversion of the source. -/
def saturate8 (x : ℚ) : ℕ := (min 255 (max 0 (qtrunc x))).toNat

/-- Per-channel map of `ImageLerpInvocation.invoke`:
`image_arr = asarray(image, float32) / 255` then
`image_arr * (max - min) + max`, followed by the `numpy.uint8` cast. -/
def lerpChan (mn mx v : ℕ) : ℕ :=
  numpyUint8 ((v : ℚ) / 255 * ((mx : ℚ) - (mn : ℚ)) + (mx : ℚ))

/-- Modelled from the spec: "per-pixel linear remap defined as
`output = normalize(input) * (max − min) + max`, then saturate to 8-bit
range".  The same formula as `lerpChan` with a saturating final
conversion instead of a wrapping one. -/
def lerpChanSpec (mn mx v : ℕ) : ℕ :=
  saturate8 ((v : ℚ) / 255 * ((mx : ℚ) - (mn : ℚ)) + (mx : ℚ))

/-- Per-channel value computed by `ImageInverseLerpInvocation.invoke` before
the `uint8` cast:
`minimum(maximum(image_arr - min, 0) / float(max - min), 1) * 255`.
When `max = min` the float division is by `0.0`: numpy emits a runtime
warning (it does not raise) and produces a non-finite value (infinity or
NaN); `none` models that non-finite result. -/
def ilerpChanVal (mn mx v : ℕ) : Option ℚ :=
  if mx = mn then none
  else some (min (max ((v : ℚ) - (mn : ℚ)) 0 / ((mx : ℚ) - (mn : ℚ))) 1 * 255)

/-- Per-channel map of `ImageInverseLerpInvocation.invoke` including the
`numpy.uint8` cast.  The C cast of a non-finite float is unspecified; it is
modelled as 0 (the usual x86 outcome).  Nothing below depends on that value:
what matters is that no exception is raised on the `max = min` path. -/
def ilerpChan (mn mx v : ℕ) : ℕ := (ilerpChanVal mn mx v).elim 0 numpyUint8

/-- The PIL colour modes that the embedded operations need
(band counts 1, 2, 3, 4). -/
inductive Mode
  | L
  | LA
  | RGB
  | RGBA
deriving DecidableEq

/-- Number of bands of a mode. -/
def Mode.bands : Mode → ℕ
  | .L => 1
  | .LA => 2
  | .RGB => 3
  | .RGBA => 4

/-- A PIL image: colour mode, dimensions, and a total pixel map giving the
list of channel values at `(x, y)`.  The operations below only read pixels
inside the declared bounds. -/
structure Img where
  mode : Mode
  width : ℕ
  height : ℕ
  px : ℕ → ℕ → List ℕ

/-- Well-formedness: every in-bounds pixel has one value per band, each
value an 8-bit quantity in [0, 255]. -/
def Img.WF (i : Img) : Prop :=
  ∀ x < i.width, ∀ y < i.height,
    (i.px x y).length = i.mode.bands ∧ ∀ v ∈ i.px x y, v ≤ 255

/-- Failure kinds, following the taxonomy of the spec.  PIL signals size/band
mismatches of binary operations (and of paste masks) with
`ValueError("images do not match")`, which the spec names
`DimensionMismatch`; the PIL resize guard `ValueError("height and width must
be > 0")` is `InvalidDimensions`; `ImageOps.invert` on an alpha-carrying
mode raises `OSError("not supported for this image mode")`, modelled as
`UnsupportedMode`; `BadTransparencyMask` is the PIL
`ValueError("bad transparency mask")`. -/
inductive Err
  | NotFound
  | DimensionMismatch
  | UnsupportedMode
  | DivisionByZero
  | InvalidDimensions
  | BadTransparencyMask
deriving DecidableEq

/-- The image service visible to invocations: a named store of images.
`fetch` models `context.services.images.get_pil_image`; `create` models the
persistence gateway, which stores the image under a fresh name and returns
a descriptor carrying that name and the dimensions of the image.  Lineage
arguments of `create` (origin, category, node id, session id, intermediate
flag, metadata) do not affect the name of the descriptor or dimensions and are
omitted. -/
structure Store where
  imgs : List (String × Img)

def Store.fetch (st : Store) (n : String) : Except Err Img :=
  match st.imgs.find? (fun p => p.1 == n) with
  | some p => .ok p.2
  | none => .error .NotFound

/-- The fresh artifact name the gateway assigns to the `k+1`-th stored
image: "img", "img_", "img__", ...  (Unique per store size; the naming
scheme itself is internal to the external gateway.) -/
def freshName (k : ℕ) : String := String.mk ('i' :: 'm' :: 'g' :: List.replicate k '_')

def Store.create (st : Store) (i : Img) : Store × String :=
  let n := freshName st.imgs.length
  (⟨(n, i) :: st.imgs⟩, n)

/-- Output of a general image invocation: the name of the new artifact and the
dimensions of the descriptor. -/
structure ImageOutput where
  name : String
  width : ℕ
  height : ℕ
deriving DecidableEq

/-- Output of `MaskFromAlphaInvocation`. -/
structure MaskOutput where
  name : String
  width : ℕ
  height : ℕ
deriving DecidableEq

/-- Conversion of one pixel to RGBA, as `Image.paste` converts a source of
a different mode to the mode of the destination (every paste destination in the
source file is an RGBA canvas). -/
def toRGBApx (m : Mode) (p : List ℕ) : List ℕ :=
  match m with
  | .L => [p.getD 0 0, p.getD 0 0, p.getD 0 0, 255]
  | .LA => [p.getD 0 0, p.getD 0 0, p.getD 0 0, p.getD 1 0]
  | .RGB => [p.getD 0 0, p.getD 1 0, p.getD 2 0, 255]
  | .RGBA => [p.getD 0 0, p.getD 1 0, p.getD 2 0, p.getD 3 0]

/-- `Image.new("RGBA", (w, h), (0, 0, 0, 0))`: a fully transparent canvas. -/
def imageNew (w h : ℕ) : Img := ⟨.RGBA, w, h, fun _ _ => [0, 0, 0, 0]⟩

/-- `dst.paste(src, (ox, oy))` with no mask, onto an RGBA destination:
inside the pasted box the source pixel (converted to RGBA) replaces the
destination pixel, outside it the destination is unchanged; the box is
clipped to the extent of the destination. -/
def pasteRGBA (dst src : Img) (ox oy : ℤ) : Img :=
  { dst with px := fun X Y =>
      if ox ≤ (X : ℤ) ∧ (X : ℤ) < ox + src.width
          ∧ oy ≤ (Y : ℤ) ∧ (Y : ℤ) < oy + src.height then
        toRGBApx src.mode (src.px ((X : ℤ) - ox).toNat ((Y : ℤ) - oy).toNat)
      else dst.px X Y }

/-- The Pillow rounding helper `MULDIV255(a, b)`:
`t = a*b + 128; ((t >> 8) + t) >> 8`, the rounded product `a*b/255`. -/
def muldiv255 (a b : ℕ) : ℕ :=
  ((a * b + 128) / 256 + (a * b + 128)) / 256

/-- The Pillow per-band `BLEND(mask, dst, src)` used when pasting with an
L-mode mask onto an RGBA destination: the destination channel is weighted
by `255 - m` and the source channel by `m`. -/
def pasteBlendPx (m : ℕ) (d s : List ℕ) : List ℕ :=
  (List.range 4).map fun c => muldiv255 (d.getD c 0) (255 - m) + muldiv255 (s.getD c 0) m

/-- The pixel map of a masked paste: inside the pasted box, the blend of
destination and (RGBA-converted) source weighted by the mask value; the
destination elsewhere. -/
def pasteMaskPxFun (dst src mask : Img) (ox oy : ℤ) (X Y : ℕ) : List ℕ :=
  if ox ≤ (X : ℤ) ∧ (X : ℤ) < ox + src.width
      ∧ oy ≤ (Y : ℤ) ∧ (Y : ℤ) < oy + src.height then
    pasteBlendPx ((mask.px ((X : ℤ) - ox).toNat ((Y : ℤ) - oy).toNat).getD 0 0)
      (dst.px X Y)
      (toRGBApx src.mode (src.px ((X : ℤ) - ox).toNat ((Y : ℤ) - oy).toNat))
  else dst.px X Y

/-- `dst.paste(src, (ox, oy), mask)` onto an RGBA destination.  PIL requires
the mask to have the size of the source (`ValueError("images do not match")`)
and a supported mask mode (`ValueError("bad transparency mask")`
otherwise).  Only L-mode masks can reach this call in the embedded code,
because `ImageOps.invert` already rejects the alpha-carrying modes. -/
def pasteMask (dst src mask : Img) (ox oy : ℤ) : Except Err Img :=
  if mask.width = src.width ∧ mask.height = src.height then
    if mask.mode = .L then
      .ok { dst with px := pasteMaskPxFun dst src mask ox oy }
    else .error .BadTransparencyMask
  else .error .DimensionMismatch

/-- `ImageOps.invert`: the per-channel lookup `255 - v` for modes L and
RGB; the Pillow point-lut helper raises
`OSError("not supported for this image mode")` for modes carrying an alpha
band (no claim depends on that branch). -/
def imageOpsInvert (i : Img) : Except Err Img :=
  if i.mode = .L ∨ i.mode = .RGB then
    .ok { i with px := fun x y => (i.px x y).map (fun v => 255 - v) }
  else .error .UnsupportedMode

/-- `image.split()[-1]`: the last band of the image, as an L-mode image.
For RGBA/LA sources this is the alpha band; for an RGB source it is the
blue band; for an L source it is the image itself.  `split` never fails. -/
def splitLast (i : Img) : Img :=
  ⟨.L, i.width, i.height, fun x y => [(i.px x y).getD (i.mode.bands - 1) 0]⟩

/-- `ImageChops.multiply`: the Pillow chop creation requires both operands to
be 8-bit images with the same band count and the same size, raising
`ValueError("images do not match")` otherwise; each output channel is the
`MULDIV255` rounded product of the operand channels. -/
def imageChopsMultiply (a b : Img) : Except Err Img :=
  if a.mode.bands = b.mode.bands ∧ a.width = b.width ∧ a.height = b.height then
    .ok ⟨a.mode, a.width, a.height,
      fun x y => (List.range a.mode.bands).map fun c =>
        muldiv255 ((a.px x y).getD c 0) ((b.px x y).getD c 0)⟩
  else .error .DimensionMismatch

/-- The resampling kernels of `PIL_RESAMPLING_MODES`. -/
inductive ResampleMode
  | nearest
  | box
  | bilinear
  | hamming
  | bicubic
  | lanczos
deriving DecidableEq

/-- `image.resize((w, h), resample)`.  the Pillow `_resize` guard rejects a
zero target size with `ValueError("height and width must be > 0")`.  The
interpolated pixel content is internal to PIL and no claim depends on it;
it is modelled as nearest-neighbour sampling for every kernel.  The
dimensions of a successful result are exactly the requested ones. -/
def pilResize (i : Img) (w h : ℕ) (_k : ResampleMode) : Except Err Img :=
  if w < 1 ∨ h < 1 then .error .InvalidDimensions
  else .ok ⟨i.mode, w, h, fun x y => i.px (x * i.width / w) (y * i.height / h)⟩

/-- `ImageCropInvocation` inputs: `image`, `x`, `y`, and the crop
rectangle fields `width` and `height` (pydantic-validated `gt=0`). -/
structure ImageCropInvocation where
  image : String
  x : ℤ
  y : ℤ
  width : ℕ
  height : ℕ

/-- `ImageCropInvocation.invoke`: a transparent RGBA canvas of the
requested size, the source pasted at `(-x, -y)`, then persisted. -/
def ImageCropInvocation.invoke (self : ImageCropInvocation) (st : Store) :
    Except Err (ImageOutput × Store) := do
  let image ← st.fetch self.image
  let image_crop := pasteRGBA (imageNew self.width self.height) image (-self.x) (-self.y)
  let (st2, n) := st.create image_crop
  pure ({ name := n, width := image_crop.width, height := image_crop.height }, st2)

/-- `ImagePasteInvocation` inputs. -/
structure ImagePasteInvocation where
  base_image : String
  image : String
  mask : Option String
  x : ℤ
  y : ℤ

/-- The intermediate canvas built by `ImagePasteInvocation.invoke`: the
transparent RGBA canvas sized to the bounding box of the base image at the
origin and the overlay at `(x, y)`, with the base image pasted at
`(abs min_x, abs min_y)`.  The overlay is composited after this layer. -/
def pasteBaseLayer (base image : Img) (x y : ℤ) : Img :=
  let min_x := min 0 x
  let min_y := min 0 y
  let max_x := max (base.width : ℤ) ((image.width : ℤ) + x)
  let max_y := max (base.height : ℤ) ((image.height : ℤ) + y)
  pasteRGBA (imageNew (max_x - min_x).toNat (max_y - min_y).toNat) base
    (min_x.natAbs : ℤ) (min_y.natAbs : ℤ)

/-- `ImagePasteInvocation.invoke`: fetch base, overlay and optional mask;
the mask is passed through `ImageOps.invert` before use; base first, then
the overlay pasted at `(max 0 x, max 0 y)` with the inverted mask. -/
def ImagePasteInvocation.invoke (self : ImagePasteInvocation) (st : Store) :
    Except Err (ImageOutput × Store) := do
  let base_image ← st.fetch self.base_image
  let image ← st.fetch self.image
  let layer := pasteBaseLayer base_image image self.x self.y
  let new_image ← match self.mask with
    | none => pure (pasteRGBA layer image (max 0 self.x) (max 0 self.y))
    | some mname => do
        let mimg ← st.fetch mname
        let inv ← imageOpsInvert mimg
        pasteMask layer image inv (max 0 self.x) (max 0 self.y)
  let (st2, n) := st.create new_image
  pure ({ name := n, width := new_image.width, height := new_image.height }, st2)

/-- `MaskFromAlphaInvocation` inputs. -/
structure MaskFromAlphaInvocation where
  image : String
  invert : Bool

/-- `MaskFromAlphaInvocation.invoke`: `image.split()[-1]`, optionally
inverted, persisted as a mask. -/
def MaskFromAlphaInvocation.invoke (self : MaskFromAlphaInvocation) (st : Store) :
    Except Err (MaskOutput × Store) := do
  let image ← st.fetch self.image
  let m0 := splitLast image
  let image_mask ← if self.invert then imageOpsInvert m0 else pure m0
  let (st2, n) := st.create image_mask
  pure ({ name := n, width := image_mask.width, height := image_mask.height }, st2)

/-- `ImageMultiplyInvocation` inputs. -/
structure ImageMultiplyInvocation where
  image1 : String
  image2 : String

/-- `ImageMultiplyInvocation.invoke`: `ImageChops.multiply` of the two
fetched images, persisted. -/
def ImageMultiplyInvocation.invoke (self : ImageMultiplyInvocation) (st : Store) :
    Except Err (ImageOutput × Store) := do
  let image1 ← st.fetch self.image1
  let image2 ← st.fetch self.image2
  let multiply_image ← imageChopsMultiply image1 image2
  let (st2, n) := st.create multiply_image
  pure ({ name := n, width := multiply_image.width, height := multiply_image.height }, st2)

/-- `ImageScaleInvocation` inputs: `scale_factor` is pydantic-validated
`gt=0` and is a float, modelled as a rational. -/
structure ImageScaleInvocation where
  image : String
  scale_factor : ℚ
  resample_mode : ResampleMode

/-- `int(dim * scale_factor)`: the Python `int()` truncates toward zero. -/
def scaleDim (dim : ℕ) (f : ℚ) : ℕ := (qtrunc ((dim : ℚ) * f)).toNat

/-- `ImageScaleInvocation.invoke`:
`width = int(image.width * scale_factor)` (Python `int()` truncates toward
zero), same for height, then `image.resize((width, height), resample)`. -/
def ImageScaleInvocation.invoke (self : ImageScaleInvocation) (st : Store) :
    Except Err (ImageOutput × Store) := do
  let image ← st.fetch self.image
  let width := scaleDim image.width self.scale_factor
  let height := scaleDim image.height self.scale_factor
  let resize_image ← pilResize image width height self.resample_mode
  let (st2, n) := st.create resize_image
  pure ({ name := n, width := resize_image.width, height := resize_image.height }, st2)

/-- `ImageLerpInvocation` inputs: `min` and `max` are pydantic-validated
`ge=0, le=255` integers. -/
structure ImageLerpInvocation where
  image : String
  min : ℕ
  max : ℕ

/-- `ImageLerpInvocation.invoke`: every channel of every pixel mapped
through `lerpChan`, mode and dimensions preserved
(`Image.fromarray(numpy.uint8(image_arr))`). -/
def ImageLerpInvocation.invoke (self : ImageLerpInvocation) (st : Store) :
    Except Err (ImageOutput × Store) := do
  let image ← st.fetch self.image
  let lerp_image : Img :=
    { image with px := fun x y => (image.px x y).map (lerpChan self.min self.max) }
  let (st2, n) := st.create lerp_image
  pure ({ name := n, width := lerp_image.width, height := lerp_image.height }, st2)

/-- `ImageInverseLerpInvocation` inputs: `min` and `max` are
pydantic-validated `ge=0, le=255` integers; there is no constraint relating
them and no guard against `max == min`. -/
structure ImageInverseLerpInvocation where
  image : String
  min : ℕ
  max : ℕ

/-- `ImageInverseLerpInvocation.invoke`: every channel mapped through
`ilerpChan`.  Note the absence of any error path other than a failed
fetch: in particular no `DivisionByZero` is ever raised. -/
def ImageInverseLerpInvocation.invoke (self : ImageInverseLerpInvocation) (st : Store) :
    Except Err (ImageOutput × Store) := do
  let image ← st.fetch self.image
  let ilerp_image : Img :=
    { image with px := fun x y => (image.px x y).map (ilerpChan self.min self.max) }
  let (st2, n) := st.create ilerp_image
  pure ({ name := n, width := ilerp_image.width, height := ilerp_image.height }, st2)

/-- Whether an invocation result is a success. -/
def exceptOk {α : Type} : Except Err α → Bool
  | .ok _ => true
  | .error _ => false

/-- The output dimensions of a successful image invocation. -/
def outDims (r : Except Err (ImageOutput × Store)) : Option (ℕ × ℕ) :=
  match r with
  | .ok (o, _) => some (o.width, o.height)
  | .error _ => none

/-- The output dimensions of a successful mask invocation. -/
def maskOutDims (r : Except Err (MaskOutput × Store)) : Option (ℕ × ℕ) :=
  match r with
  | .ok (o, _) => some (o.width, o.height)
  | .error _ => none

/-- The pixel at `(x, y)` of the artifact persisted by a successful image
invocation (the empty list if the invocation failed). -/
def storedPx (r : Except Err (ImageOutput × Store)) (x y : ℕ) : List ℕ :=
  match r with
  | .ok (o, s) =>
      match s.fetch o.name with
      | .ok m => m.px x y
      | .error _ => []
  | .error _ => []

/-- The pixel at `(x, y)` of the artifact persisted by a successful mask
invocation. -/
def storedPxMask (r : Except Err (MaskOutput × Store)) (x y : ℕ) : List ℕ :=
  match r with
  | .ok (o, s) =>
      match s.fetch o.name with
      | .ok m => m.px x y
      | .error _ => []
  | .error _ => []

/-- Every image reachable in the store has positive dimensions. -/
def Store.PosDims (st : Store) : Prop :=
  ∀ n i, st.fetch n = .ok i → 0 < i.width ∧ 0 < i.height

instance (i : Img) : Decidable i.WF := by
  unfold Img.WF
  infer_instance

theorem exbind_ok {α β : Type} (a : α) (f : α → Except Err β) :
    (Except.ok a : Except Err α) >>= f = f a := rfl

theorem exbind_err {α β : Type} (e : Err) (f : α → Except Err β) :
    (Except.error e : Except Err α) >>= f = .error e := rfl

theorem qtrunc_of_nonneg {x : ℚ} (h : 0 ≤ x) : qtrunc x = ⌊x⌋ := if_pos h

theorem numpyUint8_eq_floor {x : ℚ} (h0 : 0 ≤ x) (h1 : x < 256) :
    numpyUint8 x = (⌊x⌋).toNat := by
  rw [numpyUint8, qtrunc_of_nonneg h0]
  have hf0 : 0 ≤ ⌊x⌋ := Int.floor_nonneg.mpr h0
  have hf1 : ⌊x⌋ < 256 := Int.floor_lt.mpr (by exact_mod_cast h1)
  rw [Int.emod_eq_of_lt hf0 hf1]

theorem numpyUint8_eq_saturate8 {x : ℚ} (h0 : 0 ≤ x) (h1 : x < 256) :
    numpyUint8 x = saturate8 x := by
  have hf0 : 0 ≤ ⌊x⌋ := Int.floor_nonneg.mpr h0
  have hf1 : ⌊x⌋ < 256 := Int.floor_lt.mpr (by exact_mod_cast h1)
  rw [numpyUint8_eq_floor h0 h1, saturate8, qtrunc_of_nonneg h0,
    max_eq_right hf0, min_eq_right (by omega)]

/-- A 1×1 L-mode image with value 255, used by witnesses. -/
def imgL255 : Img := ⟨.L, 1, 1, fun _ _ => [255]⟩

/-- A 1×1 L-mode image with value 7, used by witnesses. -/
def imgL7 : Img := ⟨.L, 1, 1, fun _ _ => [7]⟩

/-- A 1×1 RGB image with pixel (10, 20, 30), used by witnesses. -/
def imgRGB1 : Img := ⟨.RGB, 1, 1, fun _ _ => [10, 20, 30]⟩

/-- A 1×1 L-mode image with value 40, used by witnesses. -/
def imgL40 : Img := ⟨.L, 1, 1, fun _ _ => [40]⟩

/-- Claim C1: the claim states that for every image and every
`0 ≤ m ≤ 255`, `InverseLerp` with `min = max = m` raises
`DivisionByZero`.  The code has no such guard: the numpy float division by
zero only emits a runtime warning and produces non-finite values, the
`uint8` cast of which is persisted; the invocation returns successfully
and never fails with any error once the image is fetched. -/
theorem inverseLerp_equal_min_max_returns_ok (img : Img) (m : ℕ) (hm : m ≤ 255) :
    exceptOk ((ImageInverseLerpInvocation.mk "i" m m).invoke ⟨[("i", img)]⟩) = true ∧
    ∀ e : Err, (ImageInverseLerpInvocation.mk "i" m m).invoke ⟨[("i", img)]⟩ ≠ .error e :=
  ⟨rfl, fun _ h => Except.noConfusion h⟩

/-- Witness for C1 at a concrete image and `m = 128`. -/
theorem inverseLerp_equal_min_max_returns_ok_witness :
    (128 : ℕ) ≤ 255 ∧
      exceptOk ((ImageInverseLerpInvocation.mk "i" 128 128).invoke ⟨[("i", imgL255)]⟩) = true :=
  ⟨by decide, (inverseLerp_equal_min_max_returns_ok imgL255 128 (by decide)).1⟩

/-- Claim C2 counterexample: the claim states the lerp result is saturated
to [0, 255] and never wrapped modulo 256.  At input channel 255 with
`min = 0`, `max = 255` the exact value is `1.0 * 255 + 255 = 510` (float32
computes this exactly); the `numpy.uint8` cast of the code wraps it to 254,
whereas saturation would give 255; end-to-end the stored pixel is [254]. -/
theorem lerp_wraps_not_saturates_cex :
    lerpChan 0 255 255 = 254 ∧ lerpChanSpec 0 255 255 = 255 ∧
    storedPx ((ImageLerpInvocation.mk "i" 0 255).invoke ⟨[("i", imgL255)]⟩) 0 0 = [254] := by
  have hq : ((255 : ℕ) : ℚ) / 255 * (((255 : ℕ) : ℚ) - ((0 : ℕ) : ℚ)) + ((255 : ℕ) : ℚ)
      = 510 := by
    push_cast
    norm_num
  have ht : qtrunc (510 : ℚ) = 510 := by
    rw [qtrunc_of_nonneg (by norm_num)]
    norm_num
  have h1 : lerpChan 0 255 255 = 254 := by
    rw [lerpChan, hq, numpyUint8, ht]
    decide
  have h2 : lerpChanSpec 0 255 255 = 255 := by
    rw [lerpChanSpec, hq, saturate8, ht]
    decide
  have h3 : storedPx ((ImageLerpInvocation.mk "i" 0 255).invoke ⟨[("i", imgL255)]⟩) 0 0
      = [lerpChan 0 255 255] := rfl
  exact ⟨h1, h2, by rw [h3, h1]⟩

/-- Claim C2 (amended): the Lerp node maps every channel through
`normalize(v) * (max − min) + max` exactly as the formula of the claim says,
but the final 8-bit conversion truncates and wraps modulo 256 rather than
saturating; wrap and saturation agree whenever the exact value lies in
[0, 256). -/
theorem lerp_formula_wrap (img : Img) (mn mx : ℕ) (hmn : mn ≤ 255) (hmx : mx ≤ 255) :
    outDims ((ImageLerpInvocation.mk "i" mn mx).invoke ⟨[("i", img)]⟩)
      = some (img.width, img.height) ∧
    (∀ x y, storedPx ((ImageLerpInvocation.mk "i" mn mx).invoke ⟨[("i", img)]⟩) x y
      = (img.px x y).map (lerpChan mn mx)) ∧
    (∀ q : ℚ, 0 ≤ q → q < 256 → numpyUint8 q = saturate8 q) :=
  ⟨rfl, fun _ _ => rfl, fun _ h0 h1 => numpyUint8_eq_saturate8 h0 h1⟩

/-- Witness for the amended C2 theorem at a concrete image and parameters. -/
theorem lerp_formula_wrap_witness :
    (3 : ℕ) ≤ 255 ∧ (250 : ℕ) ≤ 255 ∧
      storedPx ((ImageLerpInvocation.mk "i" 3 250).invoke ⟨[("i", imgL7)]⟩) 0 0
        = (imgL7.px 0 0).map (lerpChan 3 250) :=
  ⟨by decide, by decide, (lerp_formula_wrap imgL7 3 250 (by decide) (by decide)).2.1 0 0⟩

/-- Claim C3 counterexample: the claim states that `MaskFromAlpha` on a
source without an alpha channel (such as RGB) fails with
`UnsupportedMode`.  On a 1×1 RGB image with pixel (10, 20, 30) the
invocation succeeds and silently returns a mask built from the blue band:
the stored mask pixel is [30]. -/
theorem maskFromAlpha_rgb_no_error_cex :
    exceptOk ((MaskFromAlphaInvocation.mk "i" false).invoke ⟨[("i", imgRGB1)]⟩) = true ∧
    storedPxMask ((MaskFromAlphaInvocation.mk "i" false).invoke ⟨[("i", imgRGB1)]⟩) 0 0
      = [30] := ⟨rfl, rfl⟩

/-- Claim C3 (amended): on a source without an alpha channel (mode L or
RGB) `MaskFromAlpha` never fails; it silently extracts the last band of
the source (the blue band for RGB, the single band for L), optionally
inverted. -/
theorem maskFromAlpha_last_band (img : Img) (inv : Bool)
    (hna : img.mode = .L ∨ img.mode = .RGB) :
    exceptOk ((MaskFromAlphaInvocation.mk "i" inv).invoke ⟨[("i", img)]⟩) = true ∧
    maskOutDims ((MaskFromAlphaInvocation.mk "i" inv).invoke ⟨[("i", img)]⟩)
      = some (img.width, img.height) ∧
    ∀ x y, storedPxMask ((MaskFromAlphaInvocation.mk "i" inv).invoke ⟨[("i", img)]⟩) x y
      = if inv then [255 - (img.px x y).getD (img.mode.bands - 1) 0]
        else [(img.px x y).getD (img.mode.bands - 1) 0] := by
  cases inv
  · exact ⟨rfl, rfl, fun _ _ => rfl⟩
  · exact ⟨rfl, rfl, fun _ _ => rfl⟩

/-- Witness for the amended C3 theorem on a concrete RGB image. -/
theorem maskFromAlpha_last_band_witness :
    (imgRGB1.mode = Mode.L ∨ imgRGB1.mode = Mode.RGB) ∧
      storedPxMask ((MaskFromAlphaInvocation.mk "i" true).invoke ⟨[("i", imgRGB1)]⟩) 0 0
        = if true then [255 - (imgRGB1.px 0 0).getD (imgRGB1.mode.bands - 1) 0]
          else [(imgRGB1.px 0 0).getD (imgRGB1.mode.bands - 1) 0] :=
  ⟨Or.inr rfl, (maskFromAlpha_last_band imgRGB1 true (Or.inr rfl)).2.2 0 0⟩

/-- A 2×1 L-mode image, used to witness the dimension-mismatch branch. -/
def imgL2x1 : Img := ⟨.L, 2, 1, fun _ _ => [40]⟩

/-- A 2×2 solid red RGBA image, used by witnesses. -/
def imgRGBA2 : Img := ⟨.RGBA, 2, 2, fun _ _ => [255, 0, 0, 255]⟩

/-- A 1×1 RGBA image with alpha 200, used by witnesses. -/
def imgRGBA1 : Img := ⟨.RGBA, 1, 1, fun _ _ => [1, 2, 3, 200]⟩

/-- Claim C4 counterexample: the claim states that Multiply returns the
per-pixel product for equal-sized operands.  Two 1×1 operands of
different modes (RGB × L) are equal-sized, yet the invocation fails with
the mismatch error (the PIL `ValueError("images do not match")` also fires
on differing band structure), so the claim is false as stated. -/
theorem multiply_equal_size_mode_mismatch_cex :
    imgRGB1.width = imgL40.width ∧ imgRGB1.height = imgL40.height ∧
    (ImageMultiplyInvocation.mk "a" "b").invoke ⟨[("a", imgRGB1), ("b", imgL40)]⟩
      = .error .DimensionMismatch := ⟨rfl, rfl, rfl⟩

/-- Claim C4 (amended): operands whose dimensions differ always fail with
the mismatch error before any pixel is computed; operands of equal size
and equal mode succeed, producing the per-pixel per-channel rounded
product `a*b/255` of the operand channels. -/
theorem multiply_dimension_check (a b : Img) :
    ((a.width ≠ b.width ∨ a.height ≠ b.height) →
      (ImageMultiplyInvocation.mk "a" "b").invoke ⟨[("a", a), ("b", b)]⟩
        = .error .DimensionMismatch) ∧
    (a.mode = b.mode → a.width = b.width → a.height = b.height →
      exceptOk ((ImageMultiplyInvocation.mk "a" "b").invoke ⟨[("a", a), ("b", b)]⟩) = true ∧
      outDims ((ImageMultiplyInvocation.mk "a" "b").invoke ⟨[("a", a), ("b", b)]⟩)
        = some (a.width, a.height) ∧
      ∀ x y, storedPx ((ImageMultiplyInvocation.mk "a" "b").invoke ⟨[("a", a), ("b", b)]⟩) x y
        = (List.range a.mode.bands).map fun c =>
            muldiv255 ((a.px x y).getD c 0) ((b.px x y).getD c 0)) := by
  have hfa : Store.fetch ⟨[("a", a), ("b", b)]⟩ "a" = .ok a := rfl
  have hfb : Store.fetch ⟨[("a", a), ("b", b)]⟩ "b" = .ok b := rfl
  constructor
  · intro hne
    have hmul : imageChopsMultiply a b = .error .DimensionMismatch := by
      rw [imageChopsMultiply, if_neg]
      rintro ⟨-, h2, h3⟩
      rcases hne with h | h
      · exact h h2
      · exact h h3
    rw [ImageMultiplyInvocation.invoke, hfa, exbind_ok, hfb, exbind_ok, hmul, exbind_err]
  · intro hm hw hh
    have hmul : imageChopsMultiply a b = .ok ⟨a.mode, a.width, a.height,
        fun x y => (List.range a.mode.bands).map fun c =>
          muldiv255 ((a.px x y).getD c 0) ((b.px x y).getD c 0)⟩ := by
      rw [imageChopsMultiply, if_pos ⟨by rw [hm], hw, hh⟩]
    refine ⟨?_, ?_, fun x y => ?_⟩ <;>
      rw [ImageMultiplyInvocation.invoke, hfa, exbind_ok, hfb, exbind_ok, hmul, exbind_ok] <;>
      rfl

/-- Witness for the amended C4 theorem: a concrete mismatch (1×1 vs 2×1)
fails with the mismatch error, and a concrete equal-size equal-mode pair
yields the rounded channel product. -/
theorem multiply_dimension_check_witness :
    (ImageMultiplyInvocation.mk "a" "b").invoke ⟨[("a", imgL40), ("b", imgL2x1)]⟩
      = .error .DimensionMismatch ∧
    storedPx ((ImageMultiplyInvocation.mk "a" "b").invoke ⟨[("a", imgL255), ("b", imgL40)]⟩) 0 0
      = (List.range imgL255.mode.bands).map fun c =>
          muldiv255 ((imgL255.px 0 0).getD c 0) ((imgL40.px 0 0).getD c 0) :=
  ⟨(multiply_dimension_check imgL40 imgL2x1).1 (Or.inl (by decide)),
   ((multiply_dimension_check imgL255 imgL40).2 rfl rfl rfl).2.2 0 0⟩

/-- Claim C9: `MaskFromAlpha(invert=True)` applied twice restores the
original alpha values.  The first invocation stores the L-mode mask
`255 - a` (alpha is the last band of an RGBA/LA source); the second takes
the last (only) band of that mask and inverts again, storing
`255 - (255 - a) = a`. -/
theorem maskFromAlpha_double_invert (img : Img) (hWF : img.WF)
    (ha : img.mode = .RGBA ∨ img.mode = .LA) :
    ∃ o1 s1, (MaskFromAlphaInvocation.mk "src" true).invoke ⟨[("src", img)]⟩ = .ok (o1, s1) ∧
      ∀ x < img.width, ∀ y < img.height,
        storedPxMask ((MaskFromAlphaInvocation.mk o1.name true).invoke s1) x y
          = [(img.px x y).getD (img.mode.bands - 1) 0] := by
  refine ⟨_, _, rfl, fun x hx y hy => ?_⟩
  have hb1 : 1 ≤ img.mode.bands := by
    rcases ha with h | h <;> rw [h] <;> decide
  have hlen : (img.px x y).length = img.mode.bands := (hWF x hx y hy).1
  have hlt : img.mode.bands - 1 < (img.px x y).length := by omega
  have hmem : (img.px x y).getD (img.mode.bands - 1) 0 ∈ img.px x y := by
    rw [List.getD_eq_getElem _ _ hlt]
    exact List.getElem_mem hlt
  have hle : (img.px x y).getD (img.mode.bands - 1) 0 ≤ 255 := (hWF x hx y hy).2 _ hmem
  trans [255 - (255 - (img.px x y).getD (img.mode.bands - 1) 0)]
  · rfl
  · rw [Nat.sub_sub_self hle]

/-- Witness for C9 on a concrete RGBA image with alpha 200. -/
theorem maskFromAlpha_double_invert_witness :
    imgRGBA1.WF ∧ (imgRGBA1.mode = Mode.RGBA ∨ imgRGBA1.mode = Mode.LA) ∧
    ∃ o1 s1, (MaskFromAlphaInvocation.mk "src" true).invoke ⟨[("src", imgRGBA1)]⟩
        = .ok (o1, s1) ∧
      ∀ x < imgRGBA1.width, ∀ y < imgRGBA1.height,
        storedPxMask ((MaskFromAlphaInvocation.mk o1.name true).invoke s1) x y
          = [(imgRGBA1.px x y).getD (imgRGBA1.mode.bands - 1) 0] :=
  ⟨by decide, Or.inl rfl, maskFromAlpha_double_invert imgRGBA1 (by decide) (Or.inl rfl)⟩

/-- Claim C6: a crop window lying entirely outside the source bounds
yields an image of exactly the requested width × height, every pixel of
which is the fully transparent RGBA value (0, 0, 0, 0): the pasted box
never intersects the canvas, which keeps its `Image.new` fill. -/
theorem crop_outside_transparent (img : Img) (x y : ℤ) (w h : ℕ)
    (hw : 0 < w) (hh : 0 < h)
    (hout : x + w ≤ 0 ∨ (img.width : ℤ) ≤ x ∨ y + h ≤ 0 ∨ (img.height : ℤ) ≤ y) :
    outDims ((ImageCropInvocation.mk "i" x y w h).invoke ⟨[("i", img)]⟩) = some (w, h) ∧
    ∀ X < w, ∀ Y < h,
      storedPx ((ImageCropInvocation.mk "i" x y w h).invoke ⟨[("i", img)]⟩) X Y
        = [0, 0, 0, 0] := by
  refine ⟨rfl, fun X hX Y hY => ?_⟩
  trans (if -x ≤ (X : ℤ) ∧ (X : ℤ) < -x + img.width ∧ -y ≤ (Y : ℤ) ∧ (Y : ℤ) < -y + img.height
      then toRGBApx img.mode (img.px ((X : ℤ) - -x).toNat ((Y : ℤ) - -y).toNat)
      else [0, 0, 0, 0])
  · rfl
  · rw [if_neg]
    rintro ⟨h1, h2, h3, h4⟩
    rcases hout with hc | hc | hc | hc <;> omega

/-- Witness for C6: cropping 3×3 entirely to the left of a 2×2 source. -/
theorem crop_outside_transparent_witness :
    (0 : ℕ) < 3 ∧
      ((-5 : ℤ) + (3 : ℕ) ≤ 0 ∨ ((imgRGBA2.width : ℤ) ≤ -5) ∨ ((0 : ℤ) + (3 : ℕ) ≤ 0)
        ∨ ((imgRGBA2.height : ℤ) ≤ 0)) ∧
      ∀ X < 3, ∀ Y < 3,
        storedPx ((ImageCropInvocation.mk "i" (-5) 0 3 3).invoke ⟨[("i", imgRGBA2)]⟩) X Y
          = [0, 0, 0, 0] :=
  ⟨by decide, Or.inl (by decide),
   (crop_outside_transparent imgRGBA2 (-5) 0 3 3 (by decide) (by decide)
     (Or.inl (by decide))).2⟩

/-- Claim C10 counterexample: the claim quantifies over every
`max ≠ min` in [0, 255].  With `min = 100`, `max = 0` (so `max < min`)
and input channel 255 the pre-conversion value is `-1581/4 = -395.25`,
which is outside [0, 255]; the `uint8` conversion wraps it to 117
(saturation would give 0), and the stored pixel is [117]. -/
theorem inverseLerp_negative_when_max_lt_min_cex :
    ilerpChanVal 100 0 255 = some (-1581/4 : ℚ) ∧ ¬ (0 : ℚ) ≤ -1581/4 ∧
    ilerpChan 100 0 255 = 117 ∧ saturate8 (-1581/4 : ℚ) = 0 ∧
    storedPx ((ImageInverseLerpInvocation.mk "i" 100 0).invoke ⟨[("i", imgL255)]⟩) 0 0
      = [117] := by
  have hval : ilerpChanVal 100 0 255 = some (-1581/4 : ℚ) := by
    rw [ilerpChanVal, if_neg (by decide)]
    norm_num [max_def, min_def]
  have htr : qtrunc (-1581/4 : ℚ) = -395 := by
    rw [qtrunc, if_neg (by norm_num), Int.ceil_eq_iff]
    constructor <;> norm_num
  have hchan : ilerpChan 100 0 255 = 117 := by
    rw [ilerpChan, hval]
    show numpyUint8 (-1581/4 : ℚ) = 117
    rw [numpyUint8, htr]
    decide
  have hsat : saturate8 (-1581/4 : ℚ) = 0 := by
    rw [saturate8, htr]
    decide
  have hst : storedPx ((ImageInverseLerpInvocation.mk "i" 100 0).invoke
      ⟨[("i", imgL255)]⟩) 0 0 = [ilerpChan 100 0 255] := rfl
  exact ⟨hval, by norm_num, hchan, hsat, by rw [hst, hchan]⟩

/-- Claim C10 (amended): when `min < max` every pre-conversion value lies
in [0, 255], the `uint8` conversion is the plain floor and never wraps
(it agrees with saturation).  The claim hypothesis `max ≠ min` is too
weak: for `max < min` the divisor is negative, the computed value can
leave [0, 255], and the conversion wraps. -/
theorem inverseLerp_range_when_min_lt_max (mn mx v : ℕ)
    (h1 : mn < mx) (h2 : mx ≤ 255) :
    ∃ q : ℚ, ilerpChanVal mn mx v = some q ∧ 0 ≤ q ∧ q ≤ 255 ∧
      ilerpChan mn mx v = (⌊q⌋).toNat ∧ numpyUint8 q = saturate8 q := by
  have hne : mx ≠ mn := ne_of_gt h1
  have hd : (0 : ℚ) < (mx : ℚ) - (mn : ℚ) := by
    rw [sub_pos]
    exact_mod_cast h1
  have h0q : 0 ≤ min (max ((v : ℚ) - (mn : ℚ)) 0 / ((mx : ℚ) - (mn : ℚ))) 1 * 255 := by
    have h4 : (0:ℚ) ≤ max ((v : ℚ) - (mn : ℚ)) 0 / ((mx : ℚ) - (mn : ℚ)) :=
      div_nonneg (le_max_right _ _) hd.le
    exact mul_nonneg (le_min h4 zero_le_one) (by norm_num)
  have h255 : min (max ((v : ℚ) - (mn : ℚ)) 0 / ((mx : ℚ) - (mn : ℚ))) 1 * 255 ≤ 255 := by
    calc min (max ((v : ℚ) - (mn : ℚ)) 0 / ((mx : ℚ) - (mn : ℚ))) 1 * 255
        ≤ 1 * 255 := mul_le_mul_of_nonneg_right (min_le_right _ 1) (by norm_num)
      _ = 255 := one_mul 255
  have hlt : min (max ((v : ℚ) - (mn : ℚ)) 0 / ((mx : ℚ) - (mn : ℚ))) 1 * 255 < 256 :=
    lt_of_le_of_lt h255 (by norm_num)
  refine ⟨_, ?_, h0q, h255, ?_, numpyUint8_eq_saturate8 h0q hlt⟩
  · rw [ilerpChanVal, if_neg hne]
  · rw [ilerpChan, ilerpChanVal, if_neg hne]
    exact numpyUint8_eq_floor h0q hlt

/-- Witness for the amended C10 theorem at `min = 0`, `max = 255`, `v = 7`. -/
theorem inverseLerp_range_when_min_lt_max_witness :
    (0 : ℕ) < 255 ∧ (255 : ℕ) ≤ 255 ∧
    ∃ q : ℚ, ilerpChanVal 0 255 7 = some q ∧ 0 ≤ q ∧ q ≤ 255 ∧
      ilerpChan 0 255 7 = (⌊q⌋).toNat ∧ numpyUint8 q = saturate8 q :=
  ⟨by decide, by decide, inverseLerp_range_when_min_lt_max 0 255 7 (by decide) (by decide)⟩

/-- Evaluation of `ImageScaleInvocation.invoke` on a singleton store:
everything except the resize guard reduces definitionally. -/
theorem scale_invoke_singleton (img : Img) (f : ℚ) (k : ResampleMode) :
    (ImageScaleInvocation.mk "i" f k).invoke ⟨[("i", img)]⟩
      = (pilResize img (scaleDim img.width f) (scaleDim img.height f) k) >>=
          (fun r => .ok ({ name := freshName 1, width := r.width, height := r.height },
            ⟨[(freshName 1, r), ("i", img)]⟩)) := rfl

/-- Claim C8 counterexample: the claim states Scale produces an output of
dimensions (floor(f·w), floor(f·h)) for every positive factor.  On a 1×1
source with factor 1/2 the computed target is 0×0, and the PIL resize
rejects it (`ValueError("height and width must be > 0")`): the invocation
fails instead of producing an output. -/
theorem scale_small_factor_fails_cex :
    (ImageScaleInvocation.mk "i" (1/2) .bicubic).invoke ⟨[("i", imgL7)]⟩
      = .error .InvalidDimensions := by
  have hsd : scaleDim imgL7.width (1/2) = 0 := by
    show scaleDim 1 (1/2) = 0
    rw [scaleDim, qtrunc_of_nonneg (by push_cast; norm_num)]
    rw [show ((1 : ℕ) : ℚ) * (1/2) = 1/2 by push_cast; ring]
    norm_num
  rw [scale_invoke_singleton, hsd]
  rw [show scaleDim imgL7.height (1/2) = 0 from hsd]
  rfl

/-- Claim C8 (amended): for a positive factor `f`, whenever both
`floor(f·w) ≥ 1` and `floor(f·h) ≥ 1` the Scale invocation succeeds with
output dimensions exactly `(floor(f·w), floor(f·h))`; in particular
`f = 1` returns the source dimensions.  When either floor is 0, the PIL
resize guard rejects the target and the invocation fails (see the
counterexample). -/
theorem scale_floor_dims (img : Img) (f : ℚ) (k : ResampleMode) (hf : 0 < f)
    (hw : 1 ≤ ⌊(img.width : ℚ) * f⌋) (hh : 1 ≤ ⌊(img.height : ℚ) * f⌋) :
    outDims ((ImageScaleInvocation.mk "i" f k).invoke ⟨[("i", img)]⟩)
      = some ((⌊(img.width : ℚ) * f⌋).toNat, (⌊(img.height : ℚ) * f⌋).toNat) ∧
    (f = 1 → outDims ((ImageScaleInvocation.mk "i" f k).invoke ⟨[("i", img)]⟩)
      = some (img.width, img.height)) := by
  have hsw : scaleDim img.width f = (⌊(img.width : ℚ) * f⌋).toNat := by
    rw [scaleDim, qtrunc_of_nonneg (mul_nonneg (Nat.cast_nonneg _) hf.le)]
  have hsh : scaleDim img.height f = (⌊(img.height : ℚ) * f⌋).toNat := by
    rw [scaleDim, qtrunc_of_nonneg (mul_nonneg (Nat.cast_nonneg _) hf.le)]
  have hmain : outDims ((ImageScaleInvocation.mk "i" f k).invoke ⟨[("i", img)]⟩)
      = some ((⌊(img.width : ℚ) * f⌋).toNat, (⌊(img.height : ℚ) * f⌋).toNat) := by
    rw [scale_invoke_singleton, hsw, hsh, pilResize, if_neg]
    · rfl
    · rintro (hcase | hcase) <;> omega
  refine ⟨hmain, fun hf1 => ?_⟩
  subst hf1
  have hone : ∀ n : ℕ, (⌊((n : ℚ)) * 1⌋).toNat = n := by
    intro n
    rw [mul_one, Int.floor_natCast]
    exact Int.toNat_natCast n
  rw [hmain, hone, hone]

/-- Helper for the C8 witness: `floor(1 * 2) = 2 ≥ 1`. -/
theorem floor_one_mul_two_ge : (1 : ℤ) ≤ ⌊((1 : ℕ) : ℚ) * (2 : ℚ)⌋ := by
  push_cast
  norm_num

/-- Helper for the C8 witness: `(0 : ℚ) < 2`. -/
theorem two_pos_rat : (0 : ℚ) < 2 := by norm_num

/-- Witness for the amended C8 theorem: factor 2 on a 1×1 source. -/
theorem scale_floor_dims_witness :
    (0 : ℚ) < 2 ∧
      outDims ((ImageScaleInvocation.mk "i" (2 : ℚ) .bicubic).invoke ⟨[("i", imgL7)]⟩)
        = some ((⌊(imgL7.width : ℚ) * (2 : ℚ)⌋).toNat, (⌊(imgL7.height : ℚ) * (2 : ℚ)⌋).toNat) :=
  ⟨two_pos_rat,
   (scale_floor_dims imgL7 2 .bicubic two_pos_rat floor_one_mul_two_ge floor_one_mul_two_ge).1⟩

/-- Claim C7: when a mask is supplied to Paste, it is passed through
`ImageOps.invert` (each value `v` becomes `255 - v`) before being used as
the transparency mask of the overlay paste, and the overlay is composited
onto the canvas that already carries the base image
(`pasteBaseLayer`).  Consequently, inside the overlay box each channel is
blended with weight `255 - v` on the overlay and `v` on the layer below:
an all-white mask keeps the base. -/
theorem paste_mask_inverted (base over mask : Img) (x y : ℤ)
    (hWF : mask.WF) (hm : mask.mode = .L)
    (hw : mask.width = over.width) (hhgt : mask.height = over.height) :
    exceptOk ((ImagePasteInvocation.mk "b" "o" (some "m") x y).invoke
      ⟨[("b", base), ("o", over), ("m", mask)]⟩) = true ∧
    ∀ X Y : ℕ, max 0 x ≤ (X : ℤ) → (X : ℤ) < max 0 x + over.width →
      max 0 y ≤ (Y : ℤ) → (Y : ℤ) < max 0 y + over.height →
      storedPx ((ImagePasteInvocation.mk "b" "o" (some "m") x y).invoke
        ⟨[("b", base), ("o", over), ("m", mask)]⟩) X Y
        = pasteBlendPx
            (255 - (mask.px ((X : ℤ) - max 0 x).toNat ((Y : ℤ) - max 0 y).toNat).getD 0 0)
            ((pasteBaseLayer base over x y).px X Y)
            (toRGBApx over.mode
              (over.px ((X : ℤ) - max 0 x).toNat ((Y : ℤ) - max 0 y).toNat)) := by
  have hfb : Store.fetch ⟨[("b", base), ("o", over), ("m", mask)]⟩ "b" = .ok base := rfl
  have hfo : Store.fetch ⟨[("b", base), ("o", over), ("m", mask)]⟩ "o" = .ok over := rfl
  have hfm : Store.fetch ⟨[("b", base), ("o", over), ("m", mask)]⟩ "m" = .ok mask := rfl
  have hio : imageOpsInvert mask
      = .ok ⟨mask.mode, mask.width, mask.height,
          fun a b => (mask.px a b).map (fun v => 255 - v)⟩ := by
    rw [imageOpsInvert, if_pos (Or.inl hm)]
  have hpm : pasteMask (pasteBaseLayer base over x y) over
      ⟨mask.mode, mask.width, mask.height, fun a b => (mask.px a b).map (fun v => 255 - v)⟩
      (max 0 x) (max 0 y)
      = .ok ⟨(pasteBaseLayer base over x y).mode,
          (pasteBaseLayer base over x y).width,
          (pasteBaseLayer base over x y).height,
          pasteMaskPxFun (pasteBaseLayer base over x y) over
            ⟨mask.mode, mask.width, mask.height,
              fun a b => (mask.px a b).map (fun v => 255 - v)⟩
            (max 0 x) (max 0 y)⟩ := by
    rw [pasteMask, if_pos ⟨hw, hhgt⟩, if_pos hm]
  have hinvk : (ImagePasteInvocation.mk "b" "o" (some "m") x y).invoke
      ⟨[("b", base), ("o", over), ("m", mask)]⟩
      = .ok (⟨freshName 3,
              (pasteBaseLayer base over x y).width,
              (pasteBaseLayer base over x y).height⟩,
          ⟨[(freshName 3,
             ⟨(pasteBaseLayer base over x y).mode,
              (pasteBaseLayer base over x y).width,
              (pasteBaseLayer base over x y).height,
              pasteMaskPxFun (pasteBaseLayer base over x y) over
                ⟨mask.mode, mask.width, mask.height,
                  fun a b => (mask.px a b).map (fun v => 255 - v)⟩
                (max 0 x) (max 0 y)⟩),
            ("b", base), ("o", over), ("m", mask)]⟩) := by
    simp only [ImagePasteInvocation.invoke, hfb, hfo, hfm, exbind_ok, hio, hpm, Store.create]
    rfl
  refine ⟨by rw [hinvk]; rfl, fun X Y hX1 hX2 hY1 hY2 => ?_⟩
  rw [hinvk]
  trans (pasteMaskPxFun (pasteBaseLayer base over x y) over
      ⟨mask.mode, mask.width, mask.height, fun a b => (mask.px a b).map (fun v => 255 - v)⟩
      (max 0 x) (max 0 y) X Y)
  · rfl
  rw [pasteMaskPxFun, if_pos ⟨hX1, hX2, hY1, hY2⟩]
  have hrx : ((X : ℤ) - max 0 x).toNat < mask.width := by
    rw [hw]
    omega
  have hry : ((Y : ℤ) - max 0 y).toNat < mask.height := by
    rw [hhgt]
    omega
  have hlen : (mask.px ((X : ℤ) - max 0 x).toNat ((Y : ℤ) - max 0 y).toNat).length = 1 := by
    have hb := (hWF _ hrx _ hry).1
    rw [hm] at hb
    exact hb
  obtain ⟨a, ha⟩ := List.length_eq_one.mp hlen
  show pasteBlendPx (((mask.px ((X : ℤ) - max 0 x).toNat ((Y : ℤ) - max 0 y).toNat).map
      (fun v => 255 - v)).getD 0 0) _ _ = _
  rw [ha]
  rfl

/-- Witness for C7: base 2×2 RGBA, overlay 1×1 RGBA, mask 1×1 L of value
40, pasted at the origin. -/
theorem paste_mask_inverted_witness :
    imgL40.WF ∧ imgL40.mode = Mode.L ∧
      storedPx ((ImagePasteInvocation.mk "b" "o" (some "m") 0 0).invoke
        ⟨[("b", imgRGBA2), ("o", imgRGBA1), ("m", imgL40)]⟩) 0 0
        = pasteBlendPx
            (255 - (imgL40.px (((0 : ℕ) : ℤ) - max 0 0).toNat
              (((0 : ℕ) : ℤ) - max 0 0).toNat).getD 0 0)
            ((pasteBaseLayer imgRGBA2 imgRGBA1 0 0).px 0 0)
            (toRGBApx imgRGBA1.mode
              (imgRGBA1.px (((0 : ℕ) : ℤ) - max 0 0).toNat (((0 : ℕ) : ℤ) - max 0 0).toNat)) :=
  ⟨by decide, rfl,
   (paste_mask_inverted imgRGBA2 imgRGBA1 imgL40 0 0 (by decide) rfl rfl rfl).2 0 0
     (by decide) (by decide) (by decide) (by decide)⟩

theorem pilResize_ok_facts {i : Img} {w h : ℕ} {k : ResampleMode} {r : Img}
    (hres : pilResize i w h k = .ok r) :
    r.width = w ∧ r.height = h ∧ 1 ≤ w ∧ 1 ≤ h := by
  rw [pilResize] at hres
  by_cases hc : w < 1 ∨ h < 1
  · rw [if_pos hc] at hres
    exact Except.noConfusion hres
  · rw [if_neg hc] at hres
    injection hres with hr
    subst hr
    push_neg at hc
    exact ⟨rfl, rfl, hc.1, hc.2⟩

theorem imageOpsInvert_ok_dims {i r : Img} (h : imageOpsInvert i = .ok r) :
    r.width = i.width ∧ r.height = i.height := by
  rw [imageOpsInvert] at h
  by_cases hc : i.mode = .L ∨ i.mode = .RGB
  · rw [if_pos hc] at h
    injection h with hr
    subst hr
    exact ⟨rfl, rfl⟩
  · rw [if_neg hc] at h
    exact Except.noConfusion h

theorem pasteMask_ok_dims {dst src mask : Img} {ox oy : ℤ} {r : Img}
    (h : pasteMask dst src mask ox oy = .ok r) :
    r.width = dst.width ∧ r.height = dst.height := by
  rw [pasteMask] at h
  by_cases h1 : mask.width = src.width ∧ mask.height = src.height
  · rw [if_pos h1] at h
    by_cases h2 : mask.mode = .L
    · rw [if_pos h2] at h
      injection h with hr
      subst hr
      exact ⟨rfl, rfl⟩
    · rw [if_neg h2] at h
      exact Except.noConfusion h
  · rw [if_neg h1] at h
    exact Except.noConfusion h

theorem imageChopsMultiply_ok_dims {a b r : Img} (h : imageChopsMultiply a b = .ok r) :
    r.width = a.width ∧ r.height = a.height := by
  rw [imageChopsMultiply] at h
  by_cases hc : a.mode.bands = b.mode.bands ∧ a.width = b.width ∧ a.height = b.height
  · rw [if_pos hc] at h
    injection h with hr
    subst hr
    exact ⟨rfl, rfl⟩
  · rw [if_neg hc] at h
    exact Except.noConfusion h

theorem pasteBaseLayer_pos {base : Img} (over : Img) (x y : ℤ)
    (hbw : 0 < base.width) (hbh : 0 < base.height) :
    0 < (pasteBaseLayer base over x y).width ∧ 0 < (pasteBaseLayer base over x y).height := by
  constructor
  · show 0 < (max (base.width : ℤ) ((over.width : ℤ) + x) - min 0 x).toNat
    have ha : (base.width : ℤ) ≤ max (base.width : ℤ) ((over.width : ℤ) + x) := le_max_left _ _
    have hb : min 0 x ≤ 0 := min_le_left 0 x
    generalize max (base.width : ℤ) ((over.width : ℤ) + x) = M at ha ⊢
    generalize min 0 x = m at hb ⊢
    omega
  · show 0 < (max (base.height : ℤ) ((over.height : ℤ) + y) - min 0 y).toNat
    have ha : (base.height : ℤ) ≤ max (base.height : ℤ) ((over.height : ℤ) + y) := le_max_left _ _
    have hb : min 0 y ≤ 0 := min_le_left 0 y
    generalize max (base.height : ℤ) ((over.height : ℤ) + y) = M at ha ⊢
    generalize min 0 y = m at hb ⊢
    omega

/-- Claim C5: over any store whose images all have positive dimensions,
every embedded transformation node that returns successfully returns
positive output dimensions.  (Scale invocations whose computed target
would be zero fail inside the PIL resize guard rather than returning, so a
successful Scale always has positive dimensions, for every positive — or
even arbitrary — factor.) -/
theorem transformation_output_dims_positive (st : Store) (hst : st.PosDims) :
    (∀ nm (x y : ℤ) (w h : ℕ), 0 < w → 0 < h →
      outDims ((ImageCropInvocation.mk nm x y w h).invoke st) = none ∨
      ∃ p q, outDims ((ImageCropInvocation.mk nm x y w h).invoke st) = some (p, q)
        ∧ 0 < p ∧ 0 < q) ∧
    (∀ b o msk (x y : ℤ),
      outDims ((ImagePasteInvocation.mk b o msk x y).invoke st) = none ∨
      ∃ p q, outDims ((ImagePasteInvocation.mk b o msk x y).invoke st) = some (p, q)
        ∧ 0 < p ∧ 0 < q) ∧
    (∀ nm inv,
      maskOutDims ((MaskFromAlphaInvocation.mk nm inv).invoke st) = none ∨
      ∃ p q, maskOutDims ((MaskFromAlphaInvocation.mk nm inv).invoke st) = some (p, q)
        ∧ 0 < p ∧ 0 < q) ∧
    (∀ n1 n2,
      outDims ((ImageMultiplyInvocation.mk n1 n2).invoke st) = none ∨
      ∃ p q, outDims ((ImageMultiplyInvocation.mk n1 n2).invoke st) = some (p, q)
        ∧ 0 < p ∧ 0 < q) ∧
    (∀ nm (f : ℚ) k,
      outDims ((ImageScaleInvocation.mk nm f k).invoke st) = none ∨
      ∃ p q, outDims ((ImageScaleInvocation.mk nm f k).invoke st) = some (p, q)
        ∧ 0 < p ∧ 0 < q) ∧
    (∀ nm mn mx,
      outDims ((ImageLerpInvocation.mk nm mn mx).invoke st) = none ∨
      ∃ p q, outDims ((ImageLerpInvocation.mk nm mn mx).invoke st) = some (p, q)
        ∧ 0 < p ∧ 0 < q) ∧
    (∀ nm mn mx,
      outDims ((ImageInverseLerpInvocation.mk nm mn mx).invoke st) = none ∨
      ∃ p q, outDims ((ImageInverseLerpInvocation.mk nm mn mx).invoke st) = some (p, q)
        ∧ 0 < p ∧ 0 < q) := by
  refine ⟨?_, ?_, ?_, ?_, ?_, ?_, ?_⟩
  · intro nm x y w h hw hh
    rcases hfetch : st.fetch nm with e | img
    · left
      simp only [ImageCropInvocation.invoke, hfetch, exbind_err]
      rfl
    · right
      simp only [ImageCropInvocation.invoke, hfetch, exbind_ok]
      exact ⟨w, h, rfl, hw, hh⟩
  · intro b o msk x y
    rcases hb : st.fetch b with e | base
    · left
      simp only [ImagePasteInvocation.invoke, hb, exbind_err]
      rfl
    rcases ho : st.fetch o with e | over
    · left
      simp only [ImagePasteInvocation.invoke, hb, ho, exbind_ok, exbind_err]
      rfl
    have hpos := hst b base hb
    cases msk with
    | none =>
        right
        simp only [ImagePasteInvocation.invoke, hb, ho, exbind_ok]
        exact ⟨(pasteBaseLayer base over x y).width, (pasteBaseLayer base over x y).height,
          rfl, (pasteBaseLayer_pos over x y hpos.1 hpos.2).1,
          (pasteBaseLayer_pos over x y hpos.1 hpos.2).2⟩
    | some s =>
        rcases hms : st.fetch s with e | mi
        · left
          simp only [ImagePasteInvocation.invoke, hb, ho, hms, exbind_ok, exbind_err]
          rfl
        rcases hio2 : imageOpsInvert mi with e | inv2
        · left
          simp only [ImagePasteInvocation.invoke, hb, ho, hms, hio2, exbind_ok, exbind_err]
          rfl
        rcases hpm2 : pasteMask (pasteBaseLayer base over x y) over inv2 (max 0 x) (max 0 y)
            with e | r
        · left
          simp only [ImagePasteInvocation.invoke, hb, ho, hms, hio2, hpm2,
            exbind_ok, exbind_err]
          rfl
        · right
          simp only [ImagePasteInvocation.invoke, hb, ho, hms, hio2, hpm2, exbind_ok]
          obtain ⟨hrw, hrh⟩ := pasteMask_ok_dims hpm2
          refine ⟨r.width, r.height, rfl, ?_, ?_⟩
          · rw [hrw]
            exact (pasteBaseLayer_pos over x y hpos.1 hpos.2).1
          · rw [hrh]
            exact (pasteBaseLayer_pos over x y hpos.1 hpos.2).2
  · intro nm inv
    rcases hfetch : st.fetch nm with e | img
    · left
      cases inv <;> simp only [MaskFromAlphaInvocation.invoke, hfetch, exbind_err] <;> rfl
    · right
      have hpos := hst nm img hfetch
      cases inv
      · simp only [MaskFromAlphaInvocation.invoke, hfetch, exbind_ok]
        exact ⟨img.width, img.height, rfl, hpos.1, hpos.2⟩
      · simp only [MaskFromAlphaInvocation.invoke, hfetch, exbind_ok]
        exact ⟨img.width, img.height, rfl, hpos.1, hpos.2⟩
  · intro n1 n2
    rcases h1 : st.fetch n1 with e | a
    · left
      simp only [ImageMultiplyInvocation.invoke, h1, exbind_err]
      rfl
    rcases h2 : st.fetch n2 with e | b2
    · left
      simp only [ImageMultiplyInvocation.invoke, h1, h2, exbind_ok, exbind_err]
      rfl
    rcases hmul : imageChopsMultiply a b2 with e | r
    · left
      simp only [ImageMultiplyInvocation.invoke, h1, h2, hmul, exbind_ok, exbind_err]
      rfl
    · right
      simp only [ImageMultiplyInvocation.invoke, h1, h2, hmul, exbind_ok]
      obtain ⟨hrw, hrh⟩ := imageChopsMultiply_ok_dims hmul
      have hpos := hst n1 a h1
      refine ⟨r.width, r.height, rfl, ?_, ?_⟩
      · rw [hrw]
        exact hpos.1
      · rw [hrh]
        exact hpos.2
  · intro nm f k
    rcases hfetch : st.fetch nm with e | img
    · left
      simp only [ImageScaleInvocation.invoke, hfetch, exbind_err]
      rfl
    rcases hres : pilResize img (scaleDim img.width f) (scaleDim img.height f) k with e | r
    · left
      simp only [ImageScaleInvocation.invoke, hfetch, hres, exbind_ok, exbind_err]
      rfl
    · right
      simp only [ImageScaleInvocation.invoke, hfetch, hres, exbind_ok]
      obtain ⟨hrw, hrh, hW, hH⟩ := pilResize_ok_facts hres
      refine ⟨r.width, r.height, rfl, ?_, ?_⟩
      · omega
      · omega
  · intro nm mn mx
    rcases hfetch : st.fetch nm with e | img
    · left
      simp only [ImageLerpInvocation.invoke, hfetch, exbind_err]
      rfl
    · right
      have hpos := hst nm img hfetch
      simp only [ImageLerpInvocation.invoke, hfetch, exbind_ok]
      exact ⟨img.width, img.height, rfl, hpos.1, hpos.2⟩
  · intro nm mn mx
    rcases hfetch : st.fetch nm with e | img
    · left
      simp only [ImageInverseLerpInvocation.invoke, hfetch, exbind_err]
      rfl
    · right
      have hpos := hst nm img hfetch
      simp only [ImageInverseLerpInvocation.invoke, hfetch, exbind_ok]
      exact ⟨img.width, img.height, rfl, hpos.1, hpos.2⟩

/-- The singleton store holding the 2×2 test image has positive
dimensions everywhere (helper for the C5 witness). -/
theorem wstore_posdims : (⟨[("i", imgRGBA2)]⟩ : Store).PosDims := by
  intro n i h
  rw [Store.fetch] at h
  rcases hf : List.find? (fun p => p.1 == n) [("i", imgRGBA2)] with _ | p
  · rw [hf] at h
    exact Except.noConfusion h
  · rw [hf] at h
    injection h with h2
    have hmem := List.mem_of_find?_eq_some hf
    rw [List.mem_singleton] at hmem
    subst hmem
    rw [← h2]
    exact ⟨by decide, by decide⟩

/-- Witness for C5: the crop conjunct applied over the singleton store at
a concrete positive rectangle. -/
theorem transformation_output_dims_positive_witness :
    (⟨[("i", imgRGBA2)]⟩ : Store).PosDims ∧
      (outDims ((ImageCropInvocation.mk "i" 0 0 5 5).invoke ⟨[("i", imgRGBA2)]⟩) = none ∨
       ∃ p q, outDims ((ImageCropInvocation.mk "i" 0 0 5 5).invoke ⟨[("i", imgRGBA2)]⟩)
          = some (p, q) ∧ 0 < p ∧ 0 < q) :=
  ⟨wstore_posdims,
   (transformation_output_dims_positive _ wstore_posdims).1 "i" 0 0 5 5
     (by decide) (by decide)⟩

end InvokeImage
